import Mathlib

/-!
Verification development for the daiv-github activity aggregation engine.

The Go source is embedded shallowly:

* `time.Time` instants are modeled as `Int` (nanoseconds since the zero
  instant); the Go zero `time.Time` value is the integer `0`.
* Go `(value, error)` returns are modeled as `Except String value`; the Go
  `error` payload is reduced to its message string.
* The remote GitHub API (the `go-github` client) is modeled as a record of
  oracle functions (`APIClient`), keyed by the same arguments the Go code
  passes to the client.
* Goroutine completion order in the concurrent path is modeled by an explicit
  `completionOrder` list; theorems quantify over every permutation of the
  configured repository list.
-/

namespace DaivGithub

/-- `TimeRange` from plugin/github/models.go (also stands for the structurally
identical `plug.TimeRange` of the host plugin, converted field-by-field in
`GetActivityReport`). -/
structure TimeRange where
  Start : Int
  End : Int
deriving DecidableEq, Repr

/-- `TimeRange.IsInRange` from plugin/github/models.go:
`(t.Equal(tr.Start) || t.After(tr.Start)) && t.Before(tr.End)`. -/
def TimeRange.IsInRange (tr : TimeRange) (t : Int) : Bool :=
  (t == tr.Start || decide (tr.Start < t)) && decide (t < tr.End)

/-- `User` from plugin/github/models.go. -/
structure User where
  Username : String
  Email : String
deriving DecidableEq, Repr

/-- `Commit` from plugin/github/models.go. -/
structure Commit where
  SHA : String
  Message : String
  Author : String
  Timestamp : Int
deriving DecidableEq, Repr

/-- `Review` from plugin/github/models.go. -/
structure Review where
  ID : Int
  Author : String
  State : String
  Body : String
  Timestamp : Int
deriving DecidableEq, Repr

/-- `Comment` from plugin/github/models.go. -/
structure Comment where
  ID : Int
  Author : String
  Body : String
  Timestamp : Int
  Path : String
  Position : Int
deriving DecidableEq, Repr

/-- `PullRequest` from plugin/github/models.go.  Defaults are the Go zero
values (nil slices, false flags) used when the search code builds a literal
without those fields. -/
structure PullRequest where
  Number : Int
  Title : String
  URL : String
  State : String
  CreatedAt : Int
  UpdatedAt : Int
  Author : String
  Commits : List Commit := []
  Reviews : List Review := []
  Comments : List Comment := []
  IsAuthored : Bool := false
  IsReviewed : Bool := false
deriving DecidableEq, Repr

/-- `Repository` from plugin/github/models.go. -/
structure Repository where
  Name : String
  Organization : String
  PullRequests : List PullRequest := []
deriving DecidableEq, Repr

/-- `ActivityReport` from plugin/github/models.go. -/
structure ActivityReport where
  TimeRange : TimeRange
  User : User
  Repositories : List Repository
deriving DecidableEq, Repr

/-- `QueryOptions` from plugin/github/models.go. -/
structure QueryOptions where
  BaseBranch : String
  MaxResults : Int
  IncludeAuthored : Bool
  IncludeReviewed : Bool
  IncludeComments : Bool
  IncludeCommits : Bool
deriving DecidableEq, Repr

/-- `DefaultQueryOptions` from plugin/github/models.go. -/
def DefaultQueryOptions : QueryOptions :=
  { BaseBranch := "master"
    MaxResults := 100
    IncludeAuthored := true
    IncludeReviewed := true
    IncludeComments := true
    IncludeCommits := true }

/-- `GitHubConfig` from the github package (client file). -/
structure GitHubConfig where
  Username : String
  Token : String
  Organization : String
  Repositories : List String
  QueryOptions : QueryOptions
deriving DecidableEq, Repr

/-- C1 counterexample: the claim asserts that for every range with
`start <= end`, `IsInRange(start)` is true; the degenerate range with
`start = end = 0` satisfies `start <= end` yet `IsInRange(start)` is false. -/
theorem isInRange_start_false_on_degenerate_range :
    (0 : Int) ≤ (0 : Int) ∧ TimeRange.IsInRange { Start := 0, End := 0 } 0 = false := by
  decide

/-- Unfolded containment test stated over every range: `IsInRange t` holds
exactly on `start <= t < end`. -/
theorem isInRange_characterization (tr : TimeRange) (t : Int) :
    tr.IsInRange t = true ↔ tr.Start ≤ t ∧ t < tr.End := by
  unfold TimeRange.IsInRange
  simp only [Bool.and_eq_true, Bool.or_eq_true, beq_iff_eq, decide_eq_true_eq]
  constructor
  · rintro ⟨h1 | h1, h2⟩ <;> omega
  · intro h1
    refine ⟨?_, h1.2⟩
    rcases eq_or_lt_of_le h1.1 with h | h
    · exact Or.inl h.symm
    · exact Or.inr h

/-- C1 (amended): for every range, `IsInRange t` is true exactly when
`start <= t < end`; when `start < end` (a non-degenerate range),
`IsInRange start` is true and `IsInRange end` is false; in the degenerate
case `start = end` (which still satisfies `start <= end`), `IsInRange start`
is false. -/
theorem isInRange_iff_and_boundaries (tr : TimeRange) (t : Int) :
    (tr.IsInRange t = true ↔ tr.Start ≤ t ∧ t < tr.End) ∧
    (tr.Start < tr.End →
      tr.IsInRange tr.Start = true ∧ tr.IsInRange tr.End = false) ∧
    (tr.Start = tr.End → tr.IsInRange tr.Start = false) := by
  refine ⟨isInRange_characterization tr t, fun h => ⟨?_, ?_⟩, fun heq => ?_⟩
  · rw [isInRange_characterization]
    omega
  · cases hb : tr.IsInRange tr.End with
    | false => rfl
    | true =>
      exfalso
      have := (isInRange_characterization tr tr.End).mp hb
      omega
  · cases hb : tr.IsInRange tr.Start with
    | false => rfl
    | true =>
      exfalso
      have := (isInRange_characterization tr tr.Start).mp hb
      omega

/-- Witness for C1: the iff and both boundary laws at the concrete range
`[0, 1)` and instant `0`, and the degenerate clause at the empty range
`[0, 0)`. -/
theorem isInRange_iff_and_boundaries_witness :
    (TimeRange.IsInRange { Start := 0, End := 1 } 0 = true ↔
        (0 : Int) ≤ 0 ∧ (0 : Int) < 1) ∧
    (TimeRange.IsInRange { Start := 0, End := 1 } 0 = true ∧
      TimeRange.IsInRange { Start := 0, End := 1 } 1 = false) ∧
    TimeRange.IsInRange { Start := 0, End := 0 } 0 = false :=
  ⟨(isInRange_iff_and_boundaries { Start := 0, End := 1 } 0).1,
    (isInRange_iff_and_boundaries { Start := 0, End := 1 } 0).2.1 (by decide),
    (isInRange_iff_and_boundaries { Start := 0, End := 0 } 0).2.2 rfl⟩

/-- The `GitHubRepository` interface from the github package: the repository
access port consumed by the Activity Service.  Implementations (the real
API-backed one, the mock) are values of this type. -/
structure GitHubRepositoryPort where
  GetUser : Except String User
  GetPullRequests : String → String → TimeRange → QueryOptions →
    Except String (List PullRequest)

/-- `ActivityService` from plugin/github/service.go. -/
structure ActivityService where
  repository : GitHubRepositoryPort
  config : GitHubConfig

/-- `ActivityService.processRepository` from plugin/github/service.go.
Go returns the partially-built `Repository` value alongside a non-nil error;
both callers discard that value on error, so the error case is collapsed to
`Except.error`.  Note the success case returns the repository even when
`pullRequests` is empty: the `len(pullRequests) > 0` guard only decides
whether the `PullRequests` field is assigned. -/
def ActivityService.processRepository (s : ActivityService)
    (org repoName : String) (timeRange : TimeRange) : Except String Repository :=
  let repository : Repository := { Name := repoName, Organization := org }
  match s.repository.GetPullRequests org repoName timeRange s.config.QueryOptions with
  | .error e =>
    .error ("failed to get pull requests for " ++ org ++ "/" ++ repoName ++ ": " ++ e)
  | .ok pullRequests =>
    .ok (if pullRequests.length > 0 then
          { repository with PullRequests := pullRequests }
        else repository)

/-- `ActivityService.processRepositoriesSequentially` from
plugin/github/service.go: iterate the configured repository names in order,
appending each successful result and skipping (with a log) each failure. -/
def ActivityService.processRepositoriesSequentially (s : ActivityService)
    (timeRange : TimeRange) : List Repository :=
  s.config.Repositories.filterMap
    (fun repoName => (s.processRepository s.config.Organization repoName timeRange).toOption)

/-- `ActivityService.processRepositoriesConcurrently` from
plugin/github/service.go: one goroutine per configured repository, each
sending its successful result on a channel; failures are logged and send
nothing.  The channel is drained in goroutine completion order, modeled here
by the explicit `completionOrder` argument; theorems quantify over every
permutation of `config.Repositories`. -/
def ActivityService.processRepositoriesConcurrently (s : ActivityService)
    (timeRange : TimeRange) (completionOrder : List String) : List Repository :=
  completionOrder.filterMap
    (fun repoName => (s.processRepository s.config.Organization repoName timeRange).toOption)

/-- `ActivityService.GetActivityReport` from plugin/github/service.go.
The incoming `plug.TimeRange` is converted field-by-field into the domain
`TimeRange`; both are modeled by the same structure, so the conversion is the
identity.  `completionOrder` models the concurrent path as in
`processRepositoriesConcurrently`; the sequential path ignores it. -/
def ActivityService.GetActivityReport (s : ActivityService)
    (pluginTimeRange : TimeRange) (completionOrder : List String) :
    Except String ActivityReport :=
  let timeRange := pluginTimeRange
  match s.repository.GetUser with
  | .error e => .error ("failed to get user: " ++ e)
  | .ok user =>
    .ok { TimeRange := timeRange
          User := user
          Repositories :=
            if s.config.Repositories.length > 1 then
              s.processRepositoriesConcurrently timeRange completionOrder
            else
              s.processRepositoriesSequentially timeRange }

/-- The names produced by filter-mapping `processRepository` over a name list
are exactly the names whose `GetPullRequests` call succeeds. -/
theorem map_name_filterMap_processRepository (s : ActivityService)
    (timeRange : TimeRange) (l : List String) :
    (l.filterMap
        (fun repoName =>
          (s.processRepository s.config.Organization repoName timeRange).toOption)).map
        Repository.Name
      = l.filter
        (fun repoName =>
          (s.repository.GetPullRequests s.config.Organization repoName timeRange
              s.config.QueryOptions).isOk) := by
  induction l with
  | nil => rfl
  | cons n l ih =>
    simp only [List.filterMap_cons, List.filter_cons]
    cases hpr : s.repository.GetPullRequests s.config.Organization n timeRange
        s.config.QueryOptions with
    | error e =>
      have hf : (s.processRepository s.config.Organization n timeRange).toOption
          = none := by
        simp [ActivityService.processRepository, hpr, Except.toOption]
      rw [hf]
      simpa [Except.isOk, Except.toBool] using ih
    | ok prs =>
      have hf : ∃ repo : Repository,
          (s.processRepository s.config.Organization n timeRange).toOption
            = some repo ∧ repo.Name = n := by
        by_cases hlen : prs.length > 0
        · exact ⟨⟨n, s.config.Organization, prs⟩,
            by simp [ActivityService.processRepository, hpr, Except.toOption, hlen],
            rfl⟩
        · exact ⟨⟨n, s.config.Organization, []⟩,
            by simp [ActivityService.processRepository, hpr, Except.toOption, hlen],
            rfl⟩
      obtain ⟨repo, hf, hname⟩ := hf
      rw [hf]
      simp [Except.isOk, Except.toBool, ih, hname]

/-- C2: whenever `GetUser` succeeds, `GetActivityReport` succeeds regardless
of per-repository fetch failures, and the repositories of the report are (up
to the concurrent path's completion order) exactly the configured names whose
`GetPullRequests` call succeeded — failed repositories are dropped. -/
theorem getActivityReport_drops_failed_repositories (s : ActivityService)
    (tr : TimeRange) (completionOrder : List String) (u : User)
    (hu : s.repository.GetUser = Except.ok u)
    (hp : completionOrder.Perm s.config.Repositories) :
    ∃ rep, s.GetActivityReport tr completionOrder = Except.ok rep ∧
      (rep.Repositories.map Repository.Name).Perm
        (s.config.Repositories.filter
          (fun repoName =>
            (s.repository.GetPullRequests s.config.Organization repoName tr
                s.config.QueryOptions).isOk)) := by
  have hrep : s.GetActivityReport tr completionOrder = Except.ok
      { TimeRange := tr, User := u,
        Repositories :=
          if s.config.Repositories.length > 1 then
            s.processRepositoriesConcurrently tr completionOrder
          else
            s.processRepositoriesSequentially tr } := by
    simp only [ActivityService.GetActivityReport, hu]
  refine ⟨_, hrep, ?_⟩
  dsimp only
  by_cases hlen : s.config.Repositories.length > 1
  · rw [if_pos hlen]
    unfold ActivityService.processRepositoriesConcurrently
    rw [map_name_filterMap_processRepository]
    exact hp.filter _
  · rw [if_neg hlen]
    unfold ActivityService.processRepositoriesSequentially
    rw [map_name_filterMap_processRepository]

/-- Mock port for exercising the service at concrete inputs: user lookup
succeeds, fetching fails for `repo2` only, the other repositories yield one
pull request each (mirrors the mock used by the Go service tests). -/
def mockPort : GitHubRepositoryPort :=
  { GetUser := Except.ok { Username := "testuser", Email := "test@example.com" }
    GetPullRequests := fun _ repoName _ _ =>
      if repoName = "repo2" then
        Except.error "failed to get pull requests"
      else
        Except.ok [{ Number := 1, Title := "Test PR",
                     URL := "https://github.com/testorg/" ++ repoName ++ "/pull/1",
                     State := "open", CreatedAt := 10, UpdatedAt := 16,
                     Author := "testuser", IsAuthored := true }] }

/-- Service over `mockPort` with three configured repositories. -/
def mockService : ActivityService :=
  { repository := mockPort
    config := { Username := "testuser", Token := "testtoken",
                Organization := "testorg",
                Repositories := ["repo1", "repo2", "repo3"],
                QueryOptions := DefaultQueryOptions } }

/-- Witness for C2: three configured repositories, exactly one failing fetch,
for a concrete completion order. -/
theorem getActivityReport_drops_failed_repositories_witness :
    (mockService.repository.GetUser
        = Except.ok { Username := "testuser", Email := "test@example.com" } ∧
      List.Perm ["repo3", "repo1", "repo2"] mockService.config.Repositories) ∧
    (∃ rep, mockService.GetActivityReport { Start := 0, End := 24 }
          ["repo3", "repo1", "repo2"] = Except.ok rep ∧
        (rep.Repositories.map Repository.Name).Perm
          (mockService.config.Repositories.filter
            (fun repoName =>
              (mockService.repository.GetPullRequests
                  mockService.config.Organization repoName { Start := 0, End := 24 }
                  mockService.config.QueryOptions).isOk))) :=
  ⟨⟨rfl, by decide⟩,
    getActivityReport_drops_failed_repositories mockService { Start := 0, End := 24 }
      ["repo3", "repo1", "repo2"] _ rfl (by decide)⟩

/-- Port whose fetch succeeds with zero pull requests for every repository. -/
def zeroPrPort : GitHubRepositoryPort :=
  { GetUser := Except.ok { Username := "testuser", Email := "" }
    GetPullRequests := fun _ _ _ _ => Except.ok [] }

/-- Service over `zeroPrPort` with a single configured repository. -/
def zeroPrService : ActivityService :=
  { repository := zeroPrPort
    config := { Username := "testuser", Token := "testtoken",
                Organization := "testorg", Repositories := ["repo1"],
                QueryOptions := DefaultQueryOptions } }

/-- C3: evaluation at the failing input.  A configured repository whose fetch
succeeds with zero pull requests is NOT omitted from the report: it appears
with an empty pull-request list, contradicting the claim (and the source
comment above the guard, which reads "Only include repositories with
activity" yet only gates the field assignment, not the append). -/
theorem getActivityReport_keeps_zero_pr_repository :
    zeroPrService.GetActivityReport { Start := 0, End := 24 } [] =
      Except.ok { TimeRange := { Start := 0, End := 24 },
                  User := { Username := "testuser", Email := "" },
                  Repositories := [{ Name := "repo1", Organization := "testorg",
                                     PullRequests := [] }] } := rfl

/-- C6: for a configuration with at least two repositories, the concurrent
path (under any goroutine completion order that is a permutation of the
configured list) produces a permutation of the sequential path's result:
the same repositories with identical pull-request contents, possibly
reordered. -/
theorem concurrent_matches_sequential (s : ActivityService) (tr : TimeRange)
    (completionOrder : List String)
    (h2 : 2 ≤ s.config.Repositories.length)
    (hp : completionOrder.Perm s.config.Repositories) :
    (s.processRepositoriesConcurrently tr completionOrder).Perm
      (s.processRepositoriesSequentially tr) :=
  hp.filterMap _

/-- Witness for C6 over the three-repository mock service. -/
theorem concurrent_matches_sequential_witness :
    (2 ≤ mockService.config.Repositories.length ∧
      List.Perm ["repo3", "repo1", "repo2"] mockService.config.Repositories) ∧
    (mockService.processRepositoriesConcurrently { Start := 0, End := 24 }
        ["repo3", "repo1", "repo2"]).Perm
      (mockService.processRepositoriesSequentially { Start := 0, End := 24 }) :=
  ⟨⟨by decide, by decide⟩,
    concurrent_matches_sequential mockService { Start := 0, End := 24 }
      ["repo3", "repo1", "repo2"] (by decide) (by decide)⟩

/-- A search-result issue from the remote API (the fields of
`go-github`'s `Issue` that the search code reads, with the accessor chains
`issue.GetUser().GetLogin()` etc. flattened). -/
structure Issue where
  Number : Int
  Title : String
  HTMLURL : String
  State : String
  CreatedAt : Int
  UpdatedAt : Int
  UserLogin : String
deriving DecidableEq, Repr

/-- A commit on a pull request as listed by the remote API (the fields of
`go-github`'s `RepositoryCommit` that the code reads): `AuthorLogin` is the
top-level `commit.Author.Login` account, `CommitAuthorName` is
`commit.GetCommit().GetAuthor().GetName()`, and `CommitCommitterDate` is
`commit.GetCommit().GetCommitter().GetDate()`. -/
structure RepositoryCommit where
  SHA : String
  AuthorLogin : String
  CommitMessage : String
  CommitAuthorName : String
  CommitCommitterDate : Int
deriving DecidableEq, Repr

/-- A review as listed by the remote API (`go-github`'s `PullRequestReview`).
`SubmittedAt = 0` models the Go zero `time.Time` of a review with no
submission timestamp. -/
structure PullRequestReview where
  ID : Int
  UserLogin : String
  State : String
  Body : String
  SubmittedAt : Int
deriving DecidableEq, Repr

/-- A diff comment as listed by the remote API (`go-github`'s
`PullRequestComment`). -/
structure PullRequestComment where
  ID : Int
  UserLogin : String
  Body : String
  CreatedAt : Int
  Path : String
  Position : Int
deriving DecidableEq, Repr

/-- The remote API client (`go-github`), modeled as oracle functions keyed by
the arguments the Go code passes: search by query string, list calls by
`(org, repo, prNumber)`. -/
structure APIClient where
  searchIssues : String → Except String (List Issue)
  listCommits : String → String → Int → Except String (List RepositoryCommit)
  listComments : String → String → Int → Except String (List PullRequestComment)
  listReviews : String → String → Int → Except String (List PullRequestReview)

/-- `GitHubAPIRepository` from the github package repository file. -/
structure GitHubAPIRepository where
  client : APIClient
  username : String

/-- Models Go `t.Format(layout)` (the `time` package's reference-layout
formatter): the concrete rendered text is abstracted as the layout tag joined
with the instant, which is injective in `t` for a fixed layout. -/
def timeFormat (t : Int) (layout : String) : String :=
  layout ++ "@" ++ toString t

/-- The search query built by `searchAuthoredPullRequests`. -/
def authoredQuery (username org repo baseBranch : String) (timeRange : TimeRange) :
    String :=
  "is:pr author:" ++ username ++ " repo:" ++ org ++ "/" ++ repo ++
    " base:" ++ baseBranch ++ " updated:" ++ timeFormat timeRange.Start "2006-01-02" ++
    ".." ++ timeFormat timeRange.End "2006-01-02"

/-- The search query built by `searchReviewedPullRequests`. -/
def reviewedQuery (username org repo baseBranch : String) (timeRange : TimeRange) :
    String :=
  "is:pr -author:" ++ username ++ " reviewed-by:" ++ username ++
    " repo:" ++ org ++ "/" ++ repo ++ " base:" ++ baseBranch ++
    " updated:" ++ timeFormat timeRange.Start "2006-01-02" ++
    ".." ++ timeFormat timeRange.End "2006-01-02"

/-- `GitHubAPIRepository.searchAuthoredPullRequests`: run the authored search
and build bare pull requests tagged `IsAuthored = true`; the remaining fields
keep their Go zero values. -/
def GitHubAPIRepository.searchAuthoredPullRequests (r : GitHubAPIRepository)
    (org repo : String) (timeRange : TimeRange) (options : QueryOptions) :
    Except String (List PullRequest) :=
  match r.client.searchIssues
      (authoredQuery r.username org repo options.BaseBranch timeRange) with
  | .error e => .error ("failed to search authored pull requests: " ++ e)
  | .ok issues =>
    .ok (issues.map (fun issue =>
      { Number := issue.Number, Title := issue.Title, URL := issue.HTMLURL,
        State := issue.State, CreatedAt := issue.CreatedAt,
        UpdatedAt := issue.UpdatedAt, Author := issue.UserLogin,
        IsAuthored := true }))

/-- `GitHubAPIRepository.searchReviewedPullRequests`: run the reviewed search
and build bare pull requests tagged `IsReviewed = true`. -/
def GitHubAPIRepository.searchReviewedPullRequests (r : GitHubAPIRepository)
    (org repo : String) (timeRange : TimeRange) (options : QueryOptions) :
    Except String (List PullRequest) :=
  match r.client.searchIssues
      (reviewedQuery r.username org repo options.BaseBranch timeRange) with
  | .error e => .error ("failed to search reviewed pull requests: " ++ e)
  | .ok issues =>
    .ok (issues.map (fun issue =>
      { Number := issue.Number, Title := issue.Title, URL := issue.HTMLURL,
        State := issue.State, CreatedAt := issue.CreatedAt,
        UpdatedAt := issue.UpdatedAt, Author := issue.UserLogin,
        IsReviewed := true }))

/-- The `Commit` literal built inside the `getCommits` loop body. -/
def toCommit (prCommit : RepositoryCommit) : Commit :=
  { SHA := prCommit.SHA, Message := prCommit.CommitMessage,
    Author := prCommit.CommitAuthorName,
    Timestamp := prCommit.CommitCommitterDate }

/-- `GitHubAPIRepository.getCommits`: list the commits of a pull request and
keep those whose committer date is in range.  The Go loop appends in listing
order; no sorting and no author comparison happens here. -/
def GitHubAPIRepository.getCommits (r : GitHubAPIRepository)
    (org repo : String) (prNumber : Int) (timeRange : TimeRange) :
    Except String (List Commit) :=
  match r.client.listCommits org repo prNumber with
  | .error e =>
    .error ("failed to list commits for PR #" ++ toString prNumber ++ ": " ++ e)
  | .ok prCommits =>
    .ok (prCommits.foldl
      (fun commits prCommit =>
        if timeRange.IsInRange prCommit.CommitCommitterDate then
          commits ++ [toCommit prCommit]
        else commits)
      [])

/-- The `Comment` literal built inside the `getComments` loop body. -/
def toComment (prComment : PullRequestComment) : Comment :=
  { ID := prComment.ID, Author := prComment.UserLogin, Body := prComment.Body,
    Timestamp := prComment.CreatedAt, Path := prComment.Path,
    Position := prComment.Position }

/-- `GitHubAPIRepository.getComments`: list the diff comments of a pull
request and keep those in range that were written by the configured user. -/
def GitHubAPIRepository.getComments (r : GitHubAPIRepository)
    (org repo : String) (prNumber : Int) (timeRange : TimeRange) :
    Except String (List Comment) :=
  match r.client.listComments org repo prNumber with
  | .error e =>
    .error ("failed to list comments for PR #" ++ toString prNumber ++ ": " ++ e)
  | .ok prComments =>
    .ok (prComments.foldl
      (fun comments prComment =>
        if timeRange.IsInRange prComment.CreatedAt
            && prComment.UserLogin == r.username then
          comments ++ [toComment prComment]
        else comments)
      [])

/-- The `Review` literal built inside the `getReviews` loop body. -/
def toReview (prReview : PullRequestReview) : Review :=
  { ID := prReview.ID, Author := prReview.UserLogin, State := prReview.State,
    Body := prReview.Body, Timestamp := prReview.SubmittedAt }

/-- `GitHubAPIRepository.getReviews`: list the reviews of a pull request and
keep those in range that were written by the configured user.  There is no
check for a zero submission timestamp and no sorting. -/
def GitHubAPIRepository.getReviews (r : GitHubAPIRepository)
    (org repo : String) (prNumber : Int) (timeRange : TimeRange) :
    Except String (List Review) :=
  match r.client.listReviews org repo prNumber with
  | .error e =>
    .error ("failed to list reviews for PR #" ++ toString prNumber ++ ": " ++ e)
  | .ok prReviews =>
    .ok (prReviews.foldl
      (fun reviews prReview =>
        if timeRange.IsInRange prReview.SubmittedAt
            && prReview.UserLogin == r.username then
          reviews ++ [toReview prReview]
        else reviews)
      [])

/-- One iteration of the enrichment loop in
`GitHubAPIRepository.GetPullRequests`: the three conditional field
assignments `allPRs[i].Commits = ...`, `allPRs[i].Comments = ...`,
`allPRs[i].Reviews = ...`, each aborting the whole call on a fetch error. -/
def GitHubAPIRepository.enrichPullRequest (r : GitHubAPIRepository)
    (org repo : String) (timeRange : TimeRange) (options : QueryOptions)
    (pr : PullRequest) : Except String PullRequest :=
  match (if options.IncludeCommits then
          match r.getCommits org repo pr.Number timeRange with
          | .error e => .error e
          | .ok commits => .ok { pr with Commits := commits }
        else .ok pr : Except String PullRequest) with
  | .error e => .error e
  | .ok pr1 =>
    match (if options.IncludeComments then
            match r.getComments org repo pr1.Number timeRange with
            | .error e => .error e
            | .ok comments => .ok { pr1 with Comments := comments }
          else .ok pr1 : Except String PullRequest) with
    | .error e => .error e
    | .ok pr2 =>
      if pr2.IsReviewed then
        match r.getReviews org repo pr2.Number timeRange with
        | .error e => .error e
        | .ok reviews => .ok { pr2 with Reviews := reviews }
      else .ok pr2

/-- The enrichment loop of `GitHubAPIRepository.GetPullRequests`: enrich each
element in order; the first fetch error aborts the whole call (Go returns
`nil, err`, dropping all partial work). -/
def GitHubAPIRepository.enrichAll (r : GitHubAPIRepository)
    (org repo : String) (timeRange : TimeRange) (options : QueryOptions) :
    List PullRequest → Except String (List PullRequest)
  | [] => .ok []
  | pr :: rest =>
    match r.enrichPullRequest org repo timeRange options pr with
    | .error e => .error e
    | .ok pr2 =>
      match r.enrichAll org repo timeRange options rest with
      | .error e => .error e
      | .ok rest2 => .ok (pr2 :: rest2)

/-- The search step of `GitHubAPIRepository.GetPullRequests`: the authored
batch (when enabled) followed by the reviewed batch (when enabled). -/
def GitHubAPIRepository.searchStep (r : GitHubAPIRepository)
    (org repo : String) (timeRange : TimeRange) (options : QueryOptions) :
    Except String (List PullRequest) :=
  match (if options.IncludeAuthored then
          r.searchAuthoredPullRequests org repo timeRange options
        else .ok []) with
  | .error e => .error e
  | .ok authoredPRs =>
    match (if options.IncludeReviewed then
            r.searchReviewedPullRequests org repo timeRange options
          else .ok []) with
    | .error e => .error e
    | .ok reviewedPRs => .ok (authoredPRs ++ reviewedPRs)

/-- `GitHubAPIRepository.GetPullRequests`: search, then enrich every result
in order. -/
def GitHubAPIRepository.GetPullRequests (r : GitHubAPIRepository)
    (org repo : String) (timeRange : TimeRange) (options : QueryOptions) :
    Except String (List PullRequest) :=
  match r.searchStep org repo timeRange options with
  | .error e => .error e
  | .ok allPRs => r.enrichAll org repo timeRange options allPRs

/-- The filtering loops of the repository implementation (append to an
accumulator when a predicate holds) compute `filter` followed by `map`. -/
theorem foldl_filter_append (p : α → Bool) (g : α → β) (l : List α)
    (acc : List β) :
    l.foldl (fun bs a => if p a then bs ++ [g a] else bs) acc
      = acc ++ (l.filter p).map g := by
  induction l generalizing acc with
  | nil => simp
  | cons a l ih =>
    simp only [List.foldl_cons, List.filter_cons]
    by_cases hp : p a
    · simp [hp, ih]
    · simp [hp, ih]

/-- C4 (amended): with commits enabled, the enrichment of a pull request
keeps exactly the fetched commits whose committer timestamp satisfies the
window containment test (start-inclusive, end-exclusive), in the order the
remote returned them, with no author filtering and no sorting; a commit
timestamped exactly at `window.End` never appears, and (for a non-degenerate
window) one timestamped exactly at `window.Start` always does. -/
theorem getCommits_window_filter (r : GitHubAPIRepository) (org repo : String)
    (prNumber : Int) (timeRange : TimeRange)
    (prCommits : List RepositoryCommit)
    (h : r.client.listCommits org repo prNumber = Except.ok prCommits) :
    r.getCommits org repo prNumber timeRange
        = Except.ok ((prCommits.filter
            (fun c => timeRange.IsInRange c.CommitCommitterDate)).map toCommit) ∧
    (∀ c ∈ (prCommits.filter
        (fun c => timeRange.IsInRange c.CommitCommitterDate)).map toCommit,
      c.Timestamp ≠ timeRange.End) ∧
    (timeRange.Start < timeRange.End →
      ∀ c ∈ prCommits, c.CommitCommitterDate = timeRange.Start →
        toCommit c ∈ (prCommits.filter
          (fun c => timeRange.IsInRange c.CommitCommitterDate)).map toCommit) := by
  refine ⟨?_, ?_, ?_⟩
  · unfold GitHubAPIRepository.getCommits
    rw [h]
    dsimp only
    rw [foldl_filter_append (fun c => timeRange.IsInRange c.CommitCommitterDate)
      toCommit prCommits []]
    rfl
  · intro c hc
    rw [List.mem_map] at hc
    obtain ⟨c2, hc2, rfl⟩ := hc
    rw [List.mem_filter] at hc2
    have hin := (isInRange_characterization timeRange c2.CommitCommitterDate).mp hc2.2
    show c2.CommitCommitterDate ≠ timeRange.End
    omega
  · intro hlt c hc hdate
    refine List.mem_map_of_mem toCommit (List.mem_filter.mpr ⟨hc, ?_⟩)
    rw [isInRange_characterization, hdate]
    omega

/-- A commit listed by the remote whose account login is not the target user
(used to refute the author-filtering part of the commit-enrichment claim). -/
def otherCommit : RepositoryCommit :=
  { SHA := "abc123", AuthorLogin := "otheruser", CommitMessage := "fix bug",
    CommitAuthorName := "Other Person", CommitCommitterDate := 5 }

/-- Client whose commit listing returns only `otherCommit`. -/
def commitClient : APIClient :=
  { searchIssues := fun _ => .ok []
    listCommits := fun _ _ _ => .ok [otherCommit]
    listComments := fun _ _ _ => .ok []
    listReviews := fun _ _ _ => .ok [] }

/-- Repository over `commitClient`, targeting user `me`. -/
def commitRepo : GitHubAPIRepository :=
  { client := commitClient, username := "me" }

/-- C4 counterexample: the fetched commit's account login differs from the
target user, so under the claim the enriched `Commits` list would be empty;
the code keeps the commit, because `getCommits` filters only by the window. -/
theorem getCommits_ignores_author_counterexample :
    (∀ c ∈ [otherCommit], c.AuthorLogin ≠ commitRepo.username) ∧
    commitRepo.client.listCommits "testorg" "repo1" 1 = Except.ok [otherCommit] ∧
    commitRepo.getCommits "testorg" "repo1" 1 { Start := 0, End := 10 }
      = Except.ok [toCommit otherCommit] ∧
    commitRepo.getCommits "testorg" "repo1" 1 { Start := 0, End := 10 }
      ≠ Except.ok [] := by
  refine ⟨by decide, rfl, rfl, ?_⟩
  have heva : commitRepo.getCommits "testorg" "repo1" 1 { Start := 0, End := 10 }
      = Except.ok [toCommit otherCommit] := rfl
  intro hcontra
  rw [heva] at hcontra
  exact absurd (Except.ok.inj hcontra) (by decide)

/-- C5 (amended): the enrichment of a reviewed pull request keeps exactly the
fetched reviews authored by the target user whose submission timestamp
satisfies the window containment test, in the order the remote returned them;
there is no dedicated zero-timestamp check (a zero submission timestamp is
kept whenever the zero instant lies inside the window) and no sorting.
Every kept review is authored by the target user and timestamped inside
`[start, end)`. -/
theorem getReviews_window_and_author_filter (r : GitHubAPIRepository)
    (org repo : String) (prNumber : Int) (timeRange : TimeRange)
    (prReviews : List PullRequestReview)
    (h : r.client.listReviews org repo prNumber = Except.ok prReviews) :
    r.getReviews org repo prNumber timeRange
        = Except.ok ((prReviews.filter
            (fun v => timeRange.IsInRange v.SubmittedAt
              && v.UserLogin == r.username)).map toReview) ∧
    (∀ rv ∈ (prReviews.filter
        (fun v => timeRange.IsInRange v.SubmittedAt
          && v.UserLogin == r.username)).map toReview,
      rv.Author = r.username ∧
        timeRange.Start ≤ rv.Timestamp ∧ rv.Timestamp < timeRange.End) := by
  constructor
  · unfold GitHubAPIRepository.getReviews
    rw [h]
    dsimp only
    rw [foldl_filter_append
      (fun v => timeRange.IsInRange v.SubmittedAt && v.UserLogin == r.username)
      toReview prReviews []]
    rfl
  · intro rv hrv
    rw [List.mem_map] at hrv
    obtain ⟨v, hv, rfl⟩ := hrv
    rw [List.mem_filter, Bool.and_eq_true, beq_iff_eq] at hv
    have hin := (isInRange_characterization timeRange v.SubmittedAt).mp hv.2.1
    exact ⟨hv.2.2, hin.1, hin.2⟩

/-- A review by the target user with the Go zero submission timestamp. -/
def zeroReview : PullRequestReview :=
  { ID := 7, UserLogin := "me", State := "APPROVED", Body := "lgtm",
    SubmittedAt := 0 }

/-- A later review by the target user, listed by the remote before
`zeroReview`. -/
def laterReview : PullRequestReview :=
  { ID := 8, UserLogin := "me", State := "COMMENTED", Body := "question",
    SubmittedAt := 5 }

/-- Client whose review listing returns `laterReview` then `zeroReview`. -/
def reviewClient : APIClient :=
  { searchIssues := fun _ => .ok []
    listCommits := fun _ _ _ => .ok []
    listComments := fun _ _ _ => .ok []
    listReviews := fun _ _ _ => .ok [laterReview, zeroReview] }

/-- Repository over `reviewClient`, targeting user `me`. -/
def reviewRepo : GitHubAPIRepository :=
  { client := reviewClient, username := "me" }

/-- C5 counterexample: over a window that starts at the zero instant, the
review with a zero submission timestamp IS kept (the claim says it never is),
and the kept reviews stay in listing order `[5, 0]` rather than being sorted
by submission timestamp ascending. -/
theorem getReviews_keeps_zero_timestamp_counterexample :
    zeroReview.SubmittedAt = 0 ∧
    reviewRepo.getReviews "testorg" "repo1" 1 { Start := 0, End := 10 }
      = Except.ok [toReview laterReview, toReview zeroReview] ∧
    toReview zeroReview ∈ [toReview laterReview, toReview zeroReview] ∧
    [toReview laterReview, toReview zeroReview].map Review.Timestamp = [5, 0] := by
  refine ⟨rfl, rfl, by decide, rfl⟩

/-- Witness for C4 at the concrete one-commit client and window `[0, 10)`. -/
theorem getCommits_window_filter_witness :
    (commitRepo.client.listCommits "testorg" "repo1" 1 = Except.ok [otherCommit]) ∧
    (commitRepo.getCommits "testorg" "repo1" 1 { Start := 0, End := 10 }
        = Except.ok (([otherCommit].filter
            (fun c => TimeRange.IsInRange { Start := 0, End := 10 }
              c.CommitCommitterDate)).map toCommit) ∧
      (∀ c ∈ ([otherCommit].filter
          (fun c => TimeRange.IsInRange { Start := 0, End := 10 }
            c.CommitCommitterDate)).map toCommit,
        c.Timestamp ≠ (10 : Int)) ∧
      ((0 : Int) < (10 : Int) →
        ∀ c ∈ [otherCommit], c.CommitCommitterDate = (0 : Int) →
          toCommit c ∈ ([otherCommit].filter
            (fun c => TimeRange.IsInRange { Start := 0, End := 10 }
              c.CommitCommitterDate)).map toCommit)) :=
  ⟨rfl, getCommits_window_filter commitRepo "testorg" "repo1" 1
    { Start := 0, End := 10 } [otherCommit] rfl⟩

/-- Witness for C5 at the concrete two-review client and window `[0, 10)`. -/
theorem getReviews_window_and_author_filter_witness :
    (reviewRepo.client.listReviews "testorg" "repo1" 1
        = Except.ok [laterReview, zeroReview]) ∧
    (reviewRepo.getReviews "testorg" "repo1" 1 { Start := 0, End := 10 }
        = Except.ok (([laterReview, zeroReview].filter
            (fun v => TimeRange.IsInRange { Start := 0, End := 10 } v.SubmittedAt
              && v.UserLogin == reviewRepo.username)).map toReview) ∧
      (∀ rv ∈ ([laterReview, zeroReview].filter
          (fun v => TimeRange.IsInRange { Start := 0, End := 10 } v.SubmittedAt
            && v.UserLogin == reviewRepo.username)).map toReview,
        rv.Author = reviewRepo.username ∧
          (0 : Int) ≤ rv.Timestamp ∧ rv.Timestamp < (10 : Int))) :=
  ⟨rfl, getReviews_window_and_author_filter reviewRepo "testorg" "repo1" 1
    { Start := 0, End := 10 } [laterReview, zeroReview] rfl⟩

/-- The fields of a pull request populated by the search step: everything
except the enrichment targets `Commits`, `Reviews` and `Comments`. -/
def PullRequest.sameSearchFields (a b : PullRequest) : Prop :=
  a.Number = b.Number ∧ a.Title = b.Title ∧ a.URL = b.URL ∧ a.State = b.State ∧
  a.CreatedAt = b.CreatedAt ∧ a.UpdatedAt = b.UpdatedAt ∧ a.Author = b.Author ∧
  a.IsAuthored = b.IsAuthored ∧ a.IsReviewed = b.IsReviewed

/-- `sameSearchFields` is reflexive. -/
theorem sameSearchFields_refl (a : PullRequest) : a.sameSearchFields a := by
  simp [PullRequest.sameSearchFields]

/-- `sameSearchFields` is transitive. -/
theorem sameSearchFields_trans {a b c : PullRequest}
    (h1 : a.sameSearchFields b) (h2 : b.sameSearchFields c) :
    a.sameSearchFields c := by
  obtain ⟨a1, a2, a3, a4, a5, a6, a7, a8, a9⟩ := h1
  obtain ⟨b1, b2, b3, b4, b5, b6, b7, b8, b9⟩ := h2
  exact ⟨a1.trans b1, a2.trans b2, a3.trans b3, a4.trans b4, a5.trans b5,
    a6.trans b6, a7.trans b7, a8.trans b8, a9.trans b9⟩

/-- One enrichment iteration assigns only `Commits`, `Comments` and
`Reviews`: every search-step field survives unchanged. -/
theorem enrichPullRequest_frame (r : GitHubAPIRepository) (org repo : String)
    (timeRange : TimeRange) (options : QueryOptions) (pr pr2 : PullRequest)
    (h : r.enrichPullRequest org repo timeRange options pr = Except.ok pr2) :
    pr.sameSearchFields pr2 := by
  unfold GitHubAPIRepository.enrichPullRequest at h
  split at h
  · exact absurd h (by simp)
  · rename_i pr1 heq1
    have h01 : pr.sameSearchFields pr1 := by
      split at heq1
      · split at heq1
        · exact absurd heq1 (by simp)
        · cases heq1
          simp [PullRequest.sameSearchFields]
      · cases heq1
        exact sameSearchFields_refl pr
    refine sameSearchFields_trans h01 ?_
    split at h
    · exact absurd h (by simp)
    · rename_i pr11 heq2
      have h12 : pr1.sameSearchFields pr11 := by
        split at heq2
        · split at heq2
          · exact absurd heq2 (by simp)
          · cases heq2
            simp [PullRequest.sameSearchFields]
        · cases heq2
          exact sameSearchFields_refl pr1
      refine sameSearchFields_trans h12 ?_
      split at h
      · split at h
        · exact absurd h (by simp)
        · cases h
          simp [PullRequest.sameSearchFields]
      · cases h
        exact sameSearchFields_refl _

/-- The enrichment loop keeps length and order and enriches pointwise. -/
theorem enrichAll_frame (r : GitHubAPIRepository) (org repo : String)
    (timeRange : TimeRange) (options : QueryOptions) :
    ∀ (l out : List PullRequest),
      r.enrichAll org repo timeRange options l = Except.ok out →
      List.Forall₂ PullRequest.sameSearchFields l out := by
  intro l
  induction l with
  | nil =>
    intro out h
    unfold GitHubAPIRepository.enrichAll at h
    cases h
    exact List.Forall₂.nil
  | cons pr rest ih =>
    intro out h
    unfold GitHubAPIRepository.enrichAll at h
    split at h
    · exact absurd h (by simp)
    · rename_i pr2 heq1
      split at h
      · exact absurd h (by simp)
      · rename_i rest2 heq2
        cases h
        exact List.Forall₂.cons
          (enrichPullRequest_frame r org repo timeRange options pr pr2 heq1)
          (ih rest2 heq2)

/-- C10: when `GetPullRequests` succeeds, its result has exactly one element
per search result, in the same order, and each element agrees with its search
result on `Number`, `Title`, `URL`, `State`, `CreatedAt`, `UpdatedAt`,
`Author`, `IsAuthored` and `IsReviewed` — enrichment assigns only `Commits`,
`Comments` and `Reviews`. -/
theorem getPullRequests_enrichment_frame (r : GitHubAPIRepository)
    (org repo : String) (timeRange : TimeRange) (options : QueryOptions)
    (allPRs out : List PullRequest)
    (hsearch : r.searchStep org repo timeRange options = Except.ok allPRs)
    (hout : r.GetPullRequests org repo timeRange options = Except.ok out) :
    List.Forall₂ PullRequest.sameSearchFields allPRs out := by
  unfold GitHubAPIRepository.GetPullRequests at hout
  rw [hsearch] at hout
  exact enrichAll_frame r org repo timeRange options allPRs out hout

/-- An issue returned by both searches of the frame-witness client. -/
def frameIssue : Issue :=
  { Number := 3, Title := "Frame PR", HTMLURL := "https://example/pr/3",
    State := "open", CreatedAt := 1, UpdatedAt := 2, UserLogin := "me" }

/-- Client for the C10 witness: every search returns `frameIssue`, every list
call returns an empty page. -/
def frameClient : APIClient :=
  { searchIssues := fun _ => .ok [frameIssue]
    listCommits := fun _ _ _ => .ok []
    listComments := fun _ _ _ => .ok []
    listReviews := fun _ _ _ => .ok [] }

/-- Repository over `frameClient`. -/
def frameRepo : GitHubAPIRepository :=
  { client := frameClient, username := "me" }

/-- The two search results of `frameRepo` under default options: the authored
tagging of `frameIssue` followed by its reviewed tagging. -/
def framePRs : List PullRequest :=
  [{ Number := 3, Title := "Frame PR", URL := "https://example/pr/3",
     State := "open", CreatedAt := 1, UpdatedAt := 2, Author := "me",
     IsAuthored := true },
   { Number := 3, Title := "Frame PR", URL := "https://example/pr/3",
     State := "open", CreatedAt := 1, UpdatedAt := 2, Author := "me",
     IsReviewed := true }]

/-- Witness for C10 over `frameRepo` (empty list pages leave the enriched
elements equal to the search results). -/
theorem getPullRequests_enrichment_frame_witness :
    (frameRepo.searchStep "testorg" "repo1" { Start := 0, End := 10 }
        DefaultQueryOptions = Except.ok framePRs ∧
      frameRepo.GetPullRequests "testorg" "repo1" { Start := 0, End := 10 }
        DefaultQueryOptions = Except.ok framePRs) ∧
    List.Forall₂ PullRequest.sameSearchFields framePRs framePRs :=
  ⟨⟨rfl, rfl⟩, getPullRequests_enrichment_frame frameRepo "testorg" "repo1"
    { Start := 0, End := 10 } DefaultQueryOptions framePRs framePRs rfl rfl⟩

/-- `FormattedContent` from the formatter file. -/
structure FormattedContent where
  ContentType : String
  Content : String
deriving DecidableEq, Repr

/-- `allRepositoriesEmpty` from the formatter file: false as soon as one
repository has a pull request. -/
def allRepositoriesEmpty (repositories : List Repository) : Bool :=
  repositories.all (fun repo => !(decide (repo.PullRequests.length > 0)))

/-- Sequential `strings.Builder` appends over a list: the concatenation of
`f` applied to each element in order. -/
def concatMapStr (f : α → String) : List α → String
  | [] => ""
  | a :: l => f a ++ concatMapStr f l

/-- Markdown report header: title, time-range line (dates only), user line. -/
def mdHeader (report : ActivityReport) : String :=
  "# GitHub Activity Report\n\n" ++
  "**Time Range:** " ++ timeFormat report.TimeRange.Start "2006-01-02" ++
    " to " ++ timeFormat report.TimeRange.End "2006-01-02" ++ "\n\n" ++
  "**User:** " ++ report.User.Username ++ "\n\n"

/-- Markdown commits block of one pull request. -/
def mdCommitsBlock (commits : List Commit) : String :=
  if commits.length > 0 then
    "**Commits:**\n\n" ++
      concatMapStr (fun commit =>
        "- " ++ timeFormat commit.Timestamp "2006-01-02 15:04" ++ ": " ++
          commit.Message ++ "\n") commits ++ "\n"
  else ""

/-- Markdown comments block of one pull request. -/
def mdCommentsBlock (comments : List Comment) : String :=
  if comments.length > 0 then
    "**Comments:**\n\n" ++
      concatMapStr (fun comment =>
        "- " ++ timeFormat comment.Timestamp "2006-01-02 15:04" ++ ": " ++
          comment.Body ++ "\n") comments ++ "\n"
  else ""

/-- Markdown reviews block of one pull request. -/
def mdReviewsBlock (reviews : List Review) : String :=
  if reviews.length > 0 then
    "**Reviews:**\n\n" ++
      concatMapStr (fun review =>
        "- " ++ timeFormat review.Timestamp "2006-01-02 15:04" ++ " (" ++
          review.State ++ "): " ++ review.Body ++ "\n") reviews ++ "\n"
  else ""

/-- Markdown per-pull-request header lines (number, title, state, URL). -/
def mdPrHeader (pr : PullRequest) : String :=
  "#### [#" ++ toString pr.Number ++ "] " ++ pr.Title ++ " (" ++ pr.State ++
    ")\n\n" ++ "URL: " ++ pr.URL ++ "\n\n"

/-- Markdown rendering of one authored pull request. -/
def mdAuthoredPR (pr : PullRequest) : String :=
  mdPrHeader pr ++ mdCommitsBlock pr.Commits ++ mdCommentsBlock pr.Comments ++
    "---\n\n"

/-- Markdown rendering of one reviewed pull request. -/
def mdReviewedPR (pr : PullRequest) : String :=
  mdPrHeader pr ++ mdReviewsBlock pr.Reviews ++ mdCommentsBlock pr.Comments ++
    "---\n\n"

/-- Markdown authored subsection of one repository. -/
def mdAuthoredSection (authoredPRs : List PullRequest) : String :=
  if authoredPRs.length > 0 then
    "### Authored Pull Requests\n\n" ++ concatMapStr mdAuthoredPR authoredPRs
  else ""

/-- Markdown reviewed subsection of one repository. -/
def mdReviewedSection (reviewedPRs : List PullRequest) : String :=
  if reviewedPRs.length > 0 then
    "### Reviewed Pull Requests\n\n" ++ concatMapStr mdReviewedPR reviewedPRs
  else ""

/-- Markdown section of one repository: skipped when it has no pull requests,
otherwise the repository heading followed by the authored group (pull
requests with `IsAuthored`) then the reviewed group (`IsReviewed`). -/
def mdRepoSection (repo : Repository) : String :=
  if repo.PullRequests.length == 0 then ""
  else
    "## Repository: " ++ repo.Organization ++ "/" ++ repo.Name ++ "\n\n" ++
      mdAuthoredSection (repo.PullRequests.filter (fun pr => pr.IsAuthored)) ++
      mdReviewedSection (repo.PullRequests.filter (fun pr => pr.IsReviewed))

/-- `MarkdownFormatter.Format` from the formatter file. -/
def MarkdownFormatter.Format (report : ActivityReport) :
    Except String FormattedContent :=
  if report.Repositories.length == 0 || allRepositoriesEmpty report.Repositories then
    .ok { ContentType := "text/markdown",
          Content := "No GitHub activity found for the specified time range." }
  else
    .ok { ContentType := "text/markdown",
          Content := mdHeader report ++
            concatMapStr mdRepoSection report.Repositories }

/-- Opening of the non-empty HTML document: doctype, title and embedded
style rules, through the opening body tag. -/
def htmlDocStart : String :=
  "<!DOCTYPE html>\n<html>\n<head>\n" ++
  "<title>GitHub Activity Report</title>\n" ++
  "<style>\n" ++
  "body \x7b font-family: Arial, sans-serif; margin: 20px; \x7d\n" ++
  "h1 \x7b color: #24292e; \x7d\n" ++
  "h2 \x7b color: #24292e; border-bottom: 1px solid #e1e4e8; padding-bottom: 8px; \x7d\n" ++
  "h3 \x7b margin-top: 20px; color: #0366d6; \x7d\n" ++
  ".pr \x7b background-color: #f6f8fa; border-radius: 3px; padding: 15px; margin-bottom: 15px; \x7d\n" ++
  ".pr-title \x7b font-size: 16px; margin-bottom: 10px; \x7d\n" ++
  ".pr-number \x7b color: #0366d6; font-weight: bold; \x7d\n" ++
  ".pr-state-open \x7b color: #28a745; \x7d\n" ++
  ".pr-state-closed \x7b color: #d73a49; \x7d\n" ++
  ".pr-state-merged \x7b color: #6f42c1; \x7d\n" ++
  ".metadata \x7b color: #586069; font-size: 14px; margin-bottom: 15px; \x7d\n" ++
  ".commits, .reviews, .comments \x7b margin-top: 10px; \x7d\n" ++
  ".commit, .review, .comment \x7b background-color: white; border: 1px solid #e1e4e8; padding: 10px; margin-bottom: 8px; \x7d\n" ++
  ".timestamp \x7b color: #586069; font-size: 12px; \x7d\n" ++
  "</style>\n" ++
  "</head>\n<body>\n"

/-- HTML report header block. -/
def htmlHeader (report : ActivityReport) : String :=
  "<h1>GitHub Activity Report</h1>\n" ++
  "<div class=\"metadata\">\n" ++
  "<p><strong>Time Range:</strong> " ++
    timeFormat report.TimeRange.Start "2006-01-02" ++ " to " ++
    timeFormat report.TimeRange.End "2006-01-02" ++ "</p>\n" ++
  "<p><strong>User:</strong> " ++ report.User.Username ++ "</p>\n" ++
  "</div>\n"

/-- State-dependent CSS class: closed and merged get their own class, any
other state falls back to open. -/
def htmlStateClass (pr : PullRequest) : String :=
  if pr.State == "closed" then "pr-state-closed"
  else if pr.State == "merged" then "pr-state-merged"
  else "pr-state-open"

/-- HTML per-pull-request header (number, title, state class, URL link). -/
def htmlPrHeader (pr : PullRequest) : String :=
  "<div class=\"pr\">\n" ++
  "<h4><span class=\"pr-number\">#" ++ toString pr.Number ++
    "</span> <span class=\"pr-title\">" ++ pr.Title ++
    "</span> <span class=\"" ++ htmlStateClass pr ++ "\">(" ++ pr.State ++
    ")</span></h4>\n" ++
  "<p><a href=\"" ++ pr.URL ++ "\">" ++ pr.URL ++ "</a></p>\n"

/-- HTML commits sub-block of one pull request. -/
def htmlCommitsBlock (commits : List Commit) : String :=
  if commits.length > 0 then
    "<div class=\"commits\">\n" ++ "<h5>Commits</h5>\n" ++
      concatMapStr (fun commit =>
        "<div class=\"commit\">\n" ++ "<p>" ++ commit.Message ++ "</p>\n" ++
          "<p class=\"timestamp\">" ++
          timeFormat commit.Timestamp "2006-01-02 15:04:05" ++ "</p>\n" ++
          "</div>\n") commits ++
      "</div>\n"
  else ""

/-- HTML comments sub-block of one pull request. -/
def htmlCommentsBlock (comments : List Comment) : String :=
  if comments.length > 0 then
    "<div class=\"comments\">\n" ++ "<h5>Comments</h5>\n" ++
      concatMapStr (fun comment =>
        "<div class=\"comment\">\n" ++ "<p>" ++ comment.Body ++ "</p>\n" ++
          "<p class=\"timestamp\">" ++
          timeFormat comment.Timestamp "2006-01-02 15:04:05" ++ "</p>\n" ++
          "</div>\n") comments ++
      "</div>\n"
  else ""

/-- HTML reviews sub-block of one pull request (body paragraph only when the
review body is non-empty). -/
def htmlReviewsBlock (reviews : List Review) : String :=
  if reviews.length > 0 then
    "<div class=\"reviews\">\n" ++ "<h5>Reviews</h5>\n" ++
      concatMapStr (fun review =>
        "<div class=\"review\">\n" ++ "<p><strong>" ++ review.State ++
          "</strong></p>\n" ++
          (if review.Body == "" then "" else "<p>" ++ review.Body ++ "</p>\n") ++
          "<p class=\"timestamp\">" ++
          timeFormat review.Timestamp "2006-01-02 15:04:05" ++ "</p>\n" ++
          "</div>\n") reviews ++
      "</div>\n"
  else ""

/-- HTML rendering of one authored pull request. -/
def htmlAuthoredPR (pr : PullRequest) : String :=
  htmlPrHeader pr ++ htmlCommitsBlock pr.Commits ++
    htmlCommentsBlock pr.Comments ++ "</div>\n"

/-- HTML rendering of one reviewed pull request. -/
def htmlReviewedPR (pr : PullRequest) : String :=
  htmlPrHeader pr ++ htmlReviewsBlock pr.Reviews ++
    htmlCommentsBlock pr.Comments ++ "</div>\n"

/-- HTML authored subsection of one repository. -/
def htmlAuthoredSection (authoredPRs : List PullRequest) : String :=
  if authoredPRs.length > 0 then
    "<h3>Authored Pull Requests</h3>\n" ++ concatMapStr htmlAuthoredPR authoredPRs
  else ""

/-- HTML reviewed subsection of one repository. -/
def htmlReviewedSection (reviewedPRs : List PullRequest) : String :=
  if reviewedPRs.length > 0 then
    "<h3>Reviewed Pull Requests</h3>\n" ++ concatMapStr htmlReviewedPR reviewedPRs
  else ""

/-- HTML section of one repository (skipped when empty). -/
def htmlRepoSection (repo : Repository) : String :=
  if repo.PullRequests.length == 0 then ""
  else
    "<h2>Repository: " ++ repo.Organization ++ "/" ++ repo.Name ++ "</h2>\n" ++
      htmlAuthoredSection (repo.PullRequests.filter (fun pr => pr.IsAuthored)) ++
      htmlReviewedSection (repo.PullRequests.filter (fun pr => pr.IsReviewed))

/-- `HTMLFormatter.Format` from the formatter file. -/
def HTMLFormatter.Format (report : ActivityReport) :
    Except String FormattedContent :=
  if report.Repositories.length == 0 || allRepositoriesEmpty report.Repositories then
    .ok { ContentType := "text/html",
          Content := "<html><body><h1>GitHub Activity Report</h1><p>No activity found for the specified time range.</p></body></html>" }
  else
    .ok { ContentType := "text/html",
          Content := htmlDocStart ++ htmlHeader report ++
            concatMapStr htmlRepoSection report.Repositories ++
            "</body>\n</html>" }

/-- JSON values, as produced by `encoding/json` on the domain structs.  A
`time` node is the JSON string holding the RFC3339 rendering of the instant;
keeping it as a distinct node abstracts the concrete text while preserving
injectivity in the instant. -/
inductive Json where
  | str (s : String)
  | num (n : Int)
  | bool (b : Bool)
  | time (t : Int)
  | arr (elems : List Json)
  | obj (fields : List (String × Json))
deriving Repr

mutual

/-- Textual rendering of a JSON value (models the text produced by
`json.MarshalIndent`; the indentation whitespace and string escaping of the
Go library are abstracted). -/
def Json.render : Json → String
  | .str s => "\"" ++ s ++ "\""
  | .num n => toString n
  | .bool b => if b then "true" else "false"
  | .time t => "\"" ++ timeFormat t "2006-01-02T15:04:05Z07:00" ++ "\""
  | .arr elems => "[" ++ Json.renderElems elems ++ "]"
  | .obj fields => "\x7b" ++ Json.renderFields fields ++ "\x7d"

/-- Comma-separated rendering of array elements. -/
def Json.renderElems : List Json → String
  | [] => ""
  | [j] => Json.render j
  | j :: rest => Json.render j ++ "," ++ Json.renderElems rest

/-- Comma-separated rendering of object fields. -/
def Json.renderFields : List (String × Json) → String
  | [] => ""
  | [(k, v)] => "\"" ++ k ++ "\":" ++ Json.render v
  | (k, v) :: rest => "\"" ++ k ++ "\":" ++ Json.render v ++ "," ++
      Json.renderFields rest

end

/-- `encoding/json` marshaling of `Commit` (exported Go field names). -/
def Json.ofCommit (c : Commit) : Json :=
  .obj [("SHA", .str c.SHA), ("Message", .str c.Message),
        ("Author", .str c.Author), ("Timestamp", .time c.Timestamp)]

/-- `encoding/json` marshaling of `Review`. -/
def Json.ofReview (v : Review) : Json :=
  .obj [("ID", .num v.ID), ("Author", .str v.Author), ("State", .str v.State),
        ("Body", .str v.Body), ("Timestamp", .time v.Timestamp)]

/-- `encoding/json` marshaling of `Comment`. -/
def Json.ofComment (c : Comment) : Json :=
  .obj [("ID", .num c.ID), ("Author", .str c.Author), ("Body", .str c.Body),
        ("Timestamp", .time c.Timestamp), ("Path", .str c.Path),
        ("Position", .num c.Position)]

/-- `encoding/json` marshaling of `PullRequest`. -/
def Json.ofPullRequest (pr : PullRequest) : Json :=
  .obj [("Number", .num pr.Number), ("Title", .str pr.Title),
        ("URL", .str pr.URL), ("State", .str pr.State),
        ("CreatedAt", .time pr.CreatedAt), ("UpdatedAt", .time pr.UpdatedAt),
        ("Author", .str pr.Author),
        ("Commits", .arr (pr.Commits.map Json.ofCommit)),
        ("Reviews", .arr (pr.Reviews.map Json.ofReview)),
        ("Comments", .arr (pr.Comments.map Json.ofComment)),
        ("IsAuthored", .bool pr.IsAuthored),
        ("IsReviewed", .bool pr.IsReviewed)]

/-- `encoding/json` marshaling of `Repository`. -/
def Json.ofRepository (repo : Repository) : Json :=
  .obj [("Name", .str repo.Name), ("Organization", .str repo.Organization),
        ("PullRequests", .arr (repo.PullRequests.map Json.ofPullRequest))]

/-- `encoding/json` marshaling of `TimeRange`. -/
def Json.ofTimeRange (tr : TimeRange) : Json :=
  .obj [("Start", .time tr.Start), ("End", .time tr.End)]

/-- `encoding/json` marshaling of `User`. -/
def Json.ofUser (u : User) : Json :=
  .obj [("Username", .str u.Username), ("Email", .str u.Email)]

/-- `encoding/json` marshaling of `ActivityReport`. -/
def marshalReport (report : ActivityReport) : Json :=
  .obj [("TimeRange", Json.ofTimeRange report.TimeRange),
        ("User", Json.ofUser report.User),
        ("Repositories", .arr (report.Repositories.map Json.ofRepository))]

/-- Field lookup in a JSON object. -/
def Json.lookup (j : Json) (key : String) : Option Json :=
  match j with
  | .obj fields => (fields.find? (fun f => f.1 == key)).map (fun f => f.2)
  | _ => none

/-- The named field of a JSON object, defaulting to an empty object (Go
`json.Unmarshal` leaves a missing field at its zero value). -/
def Json.child (j : Json) (key : String) : Json :=
  match j.lookup key with
  | some v => v
  | none => .obj []

/-- A string field, defaulting to the Go zero string. -/
def Json.getString (j : Json) (key : String) : String :=
  match j.lookup key with
  | some (.str s) => s
  | _ => ""

/-- An integer field, defaulting to the Go zero int. -/
def Json.getInt (j : Json) (key : String) : Int :=
  match j.lookup key with
  | some (.num n) => n
  | _ => 0

/-- A timestamp field, defaulting to the Go zero time. -/
def Json.getTime (j : Json) (key : String) : Int :=
  match j.lookup key with
  | some (.time t) => t
  | _ => 0

/-- A boolean field, defaulting to false. -/
def Json.getBool (j : Json) (key : String) : Bool :=
  match j.lookup key with
  | some (.bool b) => b
  | _ => false

/-- An array field, defaulting to the empty list. -/
def Json.getArr (j : Json) (key : String) : List Json :=
  match j.lookup key with
  | some (.arr elems) => elems
  | _ => []

/-- `json.Unmarshal` into `Commit`. -/
def unmarshalCommit (j : Json) : Commit :=
  { SHA := j.getString "SHA", Message := j.getString "Message",
    Author := j.getString "Author", Timestamp := j.getTime "Timestamp" }

/-- `json.Unmarshal` into `Review`. -/
def unmarshalReview (j : Json) : Review :=
  { ID := j.getInt "ID", Author := j.getString "Author",
    State := j.getString "State", Body := j.getString "Body",
    Timestamp := j.getTime "Timestamp" }

/-- `json.Unmarshal` into `Comment`. -/
def unmarshalComment (j : Json) : Comment :=
  { ID := j.getInt "ID", Author := j.getString "Author",
    Body := j.getString "Body", Timestamp := j.getTime "Timestamp",
    Path := j.getString "Path", Position := j.getInt "Position" }

/-- `json.Unmarshal` into `PullRequest`. -/
def unmarshalPullRequest (j : Json) : PullRequest :=
  { Number := j.getInt "Number", Title := j.getString "Title",
    URL := j.getString "URL", State := j.getString "State",
    CreatedAt := j.getTime "CreatedAt", UpdatedAt := j.getTime "UpdatedAt",
    Author := j.getString "Author",
    Commits := (j.getArr "Commits").map unmarshalCommit,
    Reviews := (j.getArr "Reviews").map unmarshalReview,
    Comments := (j.getArr "Comments").map unmarshalComment,
    IsAuthored := j.getBool "IsAuthored",
    IsReviewed := j.getBool "IsReviewed" }

/-- `json.Unmarshal` into `Repository`. -/
def unmarshalRepository (j : Json) : Repository :=
  { Name := j.getString "Name", Organization := j.getString "Organization",
    PullRequests := (j.getArr "PullRequests").map unmarshalPullRequest }

/-- `json.Unmarshal` into `TimeRange`. -/
def unmarshalTimeRange (j : Json) : TimeRange :=
  { Start := j.getTime "Start", End := j.getTime "End" }

/-- `json.Unmarshal` into `User`. -/
def unmarshalUser (j : Json) : User :=
  { Username := j.getString "Username", Email := j.getString "Email" }

/-- `json.Unmarshal` into `ActivityReport` (as the round-trip test does). -/
def unmarshalReport (j : Json) : ActivityReport :=
  { TimeRange := unmarshalTimeRange (j.child "TimeRange")
    User := unmarshalUser (j.child "User")
    Repositories := (j.getArr "Repositories").map unmarshalRepository }

/-- `JSONFormatter.Format` from the formatter file.  `json.MarshalIndent`
cannot fail on these purely concrete struct types, so the marshal-error
branch is unreachable and the non-empty branch always succeeds. -/
def JSONFormatter.Format (report : ActivityReport) :
    Except String FormattedContent :=
  if report.Repositories.length == 0 || allRepositoriesEmpty report.Repositories then
    .ok { ContentType := "application/json", Content := "\x7b\x7d" }
  else
    .ok { ContentType := "application/json",
          Content := (marshalReport report).render }

/-- C7: on an empty report (no repositories, or only repositories with empty
pull-request lists), each formatter returns its fixed empty-state document
with no error: `\x7b\x7d` for JSON, the fixed no-activity sentence for
Markdown, and the fixed minimal document for HTML. -/
theorem formatters_empty_report (report : ActivityReport)
    (h : report.Repositories.length = 0 ∨
      allRepositoriesEmpty report.Repositories = true) :
    JSONFormatter.Format report
        = Except.ok { ContentType := "application/json", Content := "\x7b\x7d" } ∧
    MarkdownFormatter.Format report
        = Except.ok { ContentType := "text/markdown",
                      Content := "No GitHub activity found for the specified time range." } ∧
    HTMLFormatter.Format report
        = Except.ok { ContentType := "text/html",
                      Content := "<html><body><h1>GitHub Activity Report</h1><p>No activity found for the specified time range.</p></body></html>" } := by
  have hb : (report.Repositories.length == 0
      || allRepositoriesEmpty report.Repositories) = true := by
    rcases h with h | h
    · simp [h]
    · simp [h]
  refine ⟨?_, ?_, ?_⟩
  · simp [JSONFormatter.Format, hb]
  · simp [MarkdownFormatter.Format, hb]
  · simp [HTMLFormatter.Format, hb]

/-- Report with one repository and no pull requests (empty by the
all-repositories-empty branch). -/
def emptyFixtureReport : ActivityReport :=
  { TimeRange := { Start := 0, End := 1 }
    User := { Username := "testuser", Email := "" }
    Repositories := [{ Name := "repo1", Organization := "testorg",
                       PullRequests := [] }] }

/-- Witness for C7 at `emptyFixtureReport`. -/
theorem formatters_empty_report_witness :
    (emptyFixtureReport.Repositories.length = 0 ∨
      allRepositoriesEmpty emptyFixtureReport.Repositories = true) ∧
    (JSONFormatter.Format emptyFixtureReport
        = Except.ok { ContentType := "application/json", Content := "\x7b\x7d" } ∧
      MarkdownFormatter.Format emptyFixtureReport
        = Except.ok { ContentType := "text/markdown",
                      Content := "No GitHub activity found for the specified time range." } ∧
      HTMLFormatter.Format emptyFixtureReport
        = Except.ok { ContentType := "text/html",
                      Content := "<html><body><h1>GitHub Activity Report</h1><p>No activity found for the specified time range.</p></body></html>" }) :=
  ⟨Or.inr (by decide), formatters_empty_report emptyFixtureReport (Or.inr (by decide))⟩

/-- C9: on a non-empty report the JSON formatter serializes the marshaled
tree without error, and parsing that tree back recovers the original
`User.Username` and the original `TimeRange`. -/
theorem json_roundtrip_preserves_user_and_timerange (report : ActivityReport)
    (h : ¬(report.Repositories.length = 0 ∨
      allRepositoriesEmpty report.Repositories = true)) :
    JSONFormatter.Format report
        = Except.ok { ContentType := "application/json",
                      Content := (marshalReport report).render } ∧
    (unmarshalReport (marshalReport report)).User.Username
        = report.User.Username ∧
    (unmarshalReport (marshalReport report)).TimeRange = report.TimeRange := by
  push_neg at h
  have hb : (report.Repositories.length == 0
      || allRepositoriesEmpty report.Repositories) = false := by
    simp [h.1, h.2]
  refine ⟨?_, rfl, rfl⟩
  simp [JSONFormatter.Format, hb]

/-- Non-empty one-repository report for the round-trip witness. -/
def roundtripFixtureReport : ActivityReport :=
  { TimeRange := { Start := 3, End := 9 }
    User := { Username := "testuser", Email := "e" }
    Repositories := [{ Name := "repo1", Organization := "testorg",
                       PullRequests := [{ Number := 1, Title := "Test PR",
                                          URL := "u", State := "open",
                                          CreatedAt := 4, UpdatedAt := 5,
                                          Author := "testuser",
                                          IsAuthored := true }] }] }

/-- Witness for C9 at `roundtripFixtureReport`. -/
theorem json_roundtrip_witness :
    (¬(roundtripFixtureReport.Repositories.length = 0 ∨
      allRepositoriesEmpty roundtripFixtureReport.Repositories = true)) ∧
    (JSONFormatter.Format roundtripFixtureReport
        = Except.ok { ContentType := "application/json",
                      Content := (marshalReport roundtripFixtureReport).render } ∧
      (unmarshalReport (marshalReport roundtripFixtureReport)).User.Username
          = roundtripFixtureReport.User.Username ∧
      (unmarshalReport (marshalReport roundtripFixtureReport)).TimeRange
          = roundtripFixtureReport.TimeRange) :=
  ⟨by decide, json_roundtrip_preserves_user_and_timerange roundtripFixtureReport (by decide)⟩

/-- `concatMapStr` distributes over list append. -/
theorem concatMapStr_append (f : α → String) (l1 l2 : List α) :
    concatMapStr f (l1 ++ l2) = concatMapStr f l1 ++ concatMapStr f l2 := by
  induction l1 with
  | nil => simp [concatMapStr]
  | cons a l ih => simp [concatMapStr, ih, String.append_assoc]

/-- A member's rendering occurs inside the concatenation. -/
theorem concatMapStr_of_mem (f : α → String) {a : α} {l : List α}
    (h : a ∈ l) : ∃ s t, concatMapStr f l = s ++ f a ++ t := by
  obtain ⟨s, t, rfl⟩ := List.append_of_mem h
  refine ⟨concatMapStr f s, concatMapStr f t, ?_⟩
  rw [concatMapStr_append]
  simp [concatMapStr, String.append_assoc]

/-- C8: a pull request flagged both authored and reviewed appears, with its
title, in the authored group and again in the reviewed group of its
repository's Markdown section: the output splits around an authored heading
followed by the title and then a reviewed heading followed by the title. -/
theorem markdown_title_under_both_headings (report : ActivityReport)
    (repo : Repository) (pr : PullRequest)
    (hrepo : repo ∈ report.Repositories) (hpr : pr ∈ repo.PullRequests)
    (ha : pr.IsAuthored = true) (hr : pr.IsReviewed = true) :
    ∃ fc, MarkdownFormatter.Format report = Except.ok fc ∧
      ∃ s1 s2 s3 s4 s5, fc.Content =
        s1 ++ "### Authored Pull Requests\n\n" ++ s2 ++ pr.Title ++ s3 ++
        "### Reviewed Pull Requests\n\n" ++ s4 ++ pr.Title ++ s5 := by
  have hprne : repo.PullRequests ≠ [] := List.ne_nil_of_mem hpr
  have hplen : 0 < repo.PullRequests.length := List.length_pos.mpr hprne
  have hlen0 : ¬ report.Repositories.length = 0 := by
    intro hc
    rw [List.length_eq_zero] at hc
    rw [hc] at hrepo
    exact absurd hrepo (List.not_mem_nil repo)
  have hempty : allRepositoriesEmpty report.Repositories = false := by
    cases hall : allRepositoriesEmpty report.Repositories
    · rfl
    · exfalso
      unfold allRepositoriesEmpty at hall
      have := List.all_eq_true.mp hall repo hrepo
      simp [hplen] at this
  have hb : (report.Repositories.length == 0
      || allRepositoriesEmpty report.Repositories) = false := by
    simp [hlen0, hempty]
  have hfmt : MarkdownFormatter.Format report = Except.ok
      { ContentType := "text/markdown",
        Content := mdHeader report ++
          concatMapStr mdRepoSection report.Repositories } := by
    simp [MarkdownFormatter.Format, hb]
  refine ⟨_, hfmt, ?_⟩
  obtain ⟨S1, S2, hsplit⟩ := concatMapStr_of_mem mdRepoSection hrepo
  have hmemA : pr ∈ repo.PullRequests.filter (fun pr => pr.IsAuthored) :=
    List.mem_filter.mpr ⟨hpr, ha⟩
  have hmemR : pr ∈ repo.PullRequests.filter (fun pr => pr.IsReviewed) :=
    List.mem_filter.mpr ⟨hpr, hr⟩
  obtain ⟨a1, b1, hA⟩ := concatMapStr_of_mem mdAuthoredPR hmemA
  obtain ⟨a2, b2, hB⟩ := concatMapStr_of_mem mdReviewedPR hmemR
  have hlenA : 0 < (repo.PullRequests.filter (fun pr => pr.IsAuthored)).length :=
    List.length_pos.mpr (List.ne_nil_of_mem hmemA)
  have hlenR : 0 < (repo.PullRequests.filter (fun pr => pr.IsReviewed)).length :=
    List.length_pos.mpr (List.ne_nil_of_mem hmemR)
  have hAsec : mdAuthoredSection (repo.PullRequests.filter (fun pr => pr.IsAuthored))
      = "### Authored Pull Requests\n\n" ++
        concatMapStr mdAuthoredPR (repo.PullRequests.filter (fun pr => pr.IsAuthored)) := by
    simp [mdAuthoredSection, hlenA]
  have hRsec : mdReviewedSection (repo.PullRequests.filter (fun pr => pr.IsReviewed))
      = "### Reviewed Pull Requests\n\n" ++
        concatMapStr mdReviewedPR (repo.PullRequests.filter (fun pr => pr.IsReviewed)) := by
    simp [mdReviewedSection, hlenR]
  have hne0 : (repo.PullRequests.length == 0) = false := by
    have hne : repo.PullRequests.length ≠ 0 := by omega
    simp [hne]
  have hrexp : mdRepoSection repo
      = "## Repository: " ++ repo.Organization ++ "/" ++ repo.Name ++ "\n\n" ++
        mdAuthoredSection (repo.PullRequests.filter (fun pr => pr.IsAuthored)) ++
        mdReviewedSection (repo.PullRequests.filter (fun pr => pr.IsReviewed)) := by
    simp [mdRepoSection, hne0]
  refine ⟨mdHeader report ++ S1 ++
      ("## Repository: " ++ repo.Organization ++ "/" ++ repo.Name ++ "\n\n"),
    a1 ++ ("#### [#" ++ toString pr.Number ++ "] "),
    (" (" ++ pr.State ++ ")\n\n" ++ "URL: " ++ pr.URL ++ "\n\n" ++
      mdCommitsBlock pr.Commits ++ mdCommentsBlock pr.Comments ++ "---\n\n") ++ b1,
    a2 ++ ("#### [#" ++ toString pr.Number ++ "] "),
    (" (" ++ pr.State ++ ")\n\n" ++ "URL: " ++ pr.URL ++ "\n\n" ++
      mdReviewsBlock pr.Reviews ++ mdCommentsBlock pr.Comments ++ "---\n\n") ++
      b2 ++ S2, ?_⟩
  show mdHeader report ++ concatMapStr mdRepoSection report.Repositories = _
  rw [hsplit, hrexp, hAsec, hRsec, hA, hB]
  unfold mdAuthoredPR mdReviewedPR mdPrHeader
  simp only [String.append_assoc]

/-- A pull request flagged both authored and reviewed. -/
def dualPR : PullRequest :=
  { Number := 123, Title := "Test PR",
    URL := "https://github.com/testorg/testrepo/pull/123", State := "open",
    CreatedAt := 1, UpdatedAt := 2, Author := "testuser",
    IsAuthored := true, IsReviewed := true }

/-- Repository holding `dualPR`. -/
def dualRepo : Repository :=
  { Name := "testrepo", Organization := "testorg", PullRequests := [dualPR] }

/-- Report holding `dualRepo`. -/
def dualPrReport : ActivityReport :=
  { TimeRange := { Start := 0, End := 24 }
    User := { Username := "testuser", Email := "" }
    Repositories := [dualRepo] }

/-- Witness for C8 at the concrete one-repository dual-flag report. -/
theorem markdown_title_under_both_headings_witness :
    (dualRepo ∈ dualPrReport.Repositories ∧ dualPR ∈ dualRepo.PullRequests ∧
      dualPR.IsAuthored = true ∧ dualPR.IsReviewed = true) ∧
    (∃ fc, MarkdownFormatter.Format dualPrReport = Except.ok fc ∧
      ∃ s1 s2 s3 s4 s5, fc.Content =
        s1 ++ "### Authored Pull Requests\n\n" ++ s2 ++ dualPR.Title ++ s3 ++
        "### Reviewed Pull Requests\n\n" ++ s4 ++ dualPR.Title ++ s5) :=
  ⟨⟨by decide, by decide, rfl, rfl⟩,
    markdown_title_under_both_headings dualPrReport dualRepo dualPR
      (by decide) (by decide) rfl rfl⟩

end DaivGithub
